import Mathlib

/-!
Verification of the narration-asset generation pipeline of the
SKA-Animations repository.

The repository contains four near-identical scripts
(`the_trilogy/generate_audio.py`, `the_fridge_case/generate_audio.py`,
`the_three_laws_of_intelligence/generate_audio.py`,
`SKA_Animation/ska_animation_archive/generate_audio.py`).  Each embeds a
literal `narrations` list of (identifier, text) pairs, a constant
`VOICE = "en-US-AndrewNeural"`, a coroutine `generate_audio(name, text,
output_dir)` that builds the path `f"{output_dir}/{name}.mp3"`, invokes
the edge-tts service with `rate="-5%"`, `pitch="+0Hz"` and saves the
resulting stream to that path, and a `main` that (in three of the four
scripts) calls `os.makedirs(output_dir, exist_ok=True)` and then loops
over `narrations` in order, awaiting each `generate_audio` call.

The shallow embedding below models the external speech-synthesis service
as a function from the issued request to either an audio content value
(`Except.ok`) or an error (`Except.error`), the filesystem as an
association list from path to content plus a list of existing
directories, and each run as an explicit state threaded through the
sequential loop, together with an event trace recording directory
creation, synthesis-service calls, and file writes in the order they
happen.
-/

/-- The request sent to the edge-tts service for one segment:
`edge_tts.Communicate(text, VOICE, rate="-5%", pitch="+0Hz")` followed by
`communicate.save(output_file)`. -/
structure SynthCall where
  text : String
  voice : String
  rate : String
  pitch : String
  outputFile : String
deriving DecidableEq

/-- An observable side effect of a run, in order of occurrence. -/
inductive Event where
  | mkdir (dir : String)
  | synth (call : SynthCall)
  | write (path : String)
deriving DecidableEq

/-- The state a run threads: directories that exist, files on disk
(path, content) with one entry per path, and the event trace so far.
Audio content is opaque and modelled as a natural number. -/
structure RunState where
  dirs : List String
  files : List (String × Nat)
  trace : List Event
deriving DecidableEq

/-- A fresh process: nothing created yet. -/
def initState : RunState := ⟨[], [], []⟩

/-- The paths of the files on disk. -/
def keys (fs : List (String × Nat)) : List String := fs.map Prod.fst

/-- Create a file or overwrite the existing file at `p` (the semantics of
`communicate.save(output_file)` on an existing path). -/
def writeFile : List (String × Nat) → String → Nat → List (String × Nat)
  | [], p, c => [(p, c)]
  | (q, d) :: fs, p, c =>
      if q = p then (p, c) :: fs else (q, d) :: writeFile fs p c

/-- Content of the file at `p`, if present. -/
def lookupFile : List (String × Nat) → String → Option Nat
  | [], _ => none
  | (q, c) :: fs, p => if q = p then some c else lookupFile fs p

/-- All four scripts: `VOICE = "en-US-AndrewNeural"`. -/
def VOICE : String := "en-US-AndrewNeural"

/-- `output_file = f"{output_dir}/{name}.mp3"` — the path built by
`generate_audio` in every script, by plain interpolation. -/
def outputPath (output_dir name : String) : String :=
  output_dir ++ "/" ++ name ++ ".mp3"

/-- The synthesis request `generate_audio` issues for one segment:
`edge_tts.Communicate(text, VOICE, rate="-5%", pitch="+0Hz")` saved to
`outputPath output_dir name`. -/
def mkCall (output_dir name text : String) : SynthCall :=
  ⟨text, VOICE, "-5%", "+0Hz", outputPath output_dir name⟩

/-- The external speech-synthesis service: one request in, either audio
content out or a service/network error. -/
def Service : Type := SynthCall → Except String Nat

/-- `generate_audio(name, text, output_dir)`: build the output path,
issue the synthesis request, and on success persist the audio stream at
that path.  On a service error the error propagates (the script has no
try/except) and the state records that the call was issued but nothing
was written.  Identical in all four scripts (the archive copy only
differs by a default value for `output_dir`, which its `main` leaves in
place). -/
def generate_audio (svc : Service) (name text output_dir : String)
    (s : RunState) : Except (String × RunState) RunState :=
  let output_file := outputPath output_dir name
  let c := mkCall output_dir name text
  match svc c with
  | Except.error e =>
      Except.error (e, { s with trace := s.trace ++ [Event.synth c] })
  | Except.ok audio =>
      Except.ok { s with
        files := writeFile s.files output_file audio,
        trace := s.trace ++ [Event.synth c, Event.write output_file] }

/-- The loop body of every script's `main`:
`for name, text in narrations: await generate_audio(name, text, output_dir)`.
Strictly sequential, in list order; the first error terminates the loop
and is returned alongside the state reached. -/
def run_batch (svc : Service) (segs : List (String × String))
    (output_dir : String) (s : RunState) : RunState × Option String :=
  match segs with
  | [] => (s, none)
  | (name, text) :: rest =>
      match generate_audio svc name text output_dir s with
      | Except.ok s' => run_batch svc rest output_dir s'
      | Except.error (e, s') => (s', some e)

/-- `os.makedirs(output_dir, exist_ok=True)`: create the directory if
absent, idempotent. -/
def makedirs (dir : String) (s : RunState) : RunState :=
  { s with
    dirs := if dir ∈ s.dirs then s.dirs else dir :: s.dirs,
    trace := s.trace ++ [Event.mkdir dir] }

/-- The synthesis-service calls recorded in a trace, in order. -/
def synthCalls (tr : List Event) : List SynthCall :=
  tr.filterMap fun e =>
    match e with
    | Event.synth c => some c
    | _ => none

/-- `true` iff the event is a directory creation. -/
def Event.isMkdir : Event → Bool
  | Event.mkdir _ => true
  | _ => false

/-- The two trace events a successful segment contributes. -/
def segEvents (output_dir : String) (seg : String × String) : List Event :=
  [Event.synth (mkCall output_dir seg.1 seg.2),
   Event.write (outputPath output_dir seg.1)]

/-- A synthesis call uses the fixed voice configuration of the scripts. -/
def fixedVoice (c : SynthCall) : Bool :=
  c.voice == "en-US-AndrewNeural" && c.rate == "-5%" && c.pitch == "+0Hz"

/-- `p` names a file directly inside directory `dir` (flat layout): `p`
extends `dir ++ "/"` and the remainder has no further path separator. -/
def flatChild (dir p : String) : Bool :=
  (dir ++ "/").data.isPrefixOf p.data &&
    !(p.data.drop (dir.data.length + 1)).contains '/'

/-- The `narrations` literal of `the_trilogy/generate_audio.py`. -/
def narrations_the_trilogy : List (String × String) := [
  ("01_intro", "The Structured Knowledge Accumulation framework introduces a unifying mathematical principle that connects information theory, physics, and geometry through the continuous evolution of knowledge."),
  ("02_part1_title", "Part One: The Foundation."),
  ("03_part1_content", "The first paper begins with the discovery that learning can be expressed as a law of entropy reduction. Each neural layer evolves autonomously, aligning its knowledge with decision probability through forward-only dynamics."),
  ("04_part1_equation", "This formulation establishes entropy as the central invariant of learning. Neural systems no longer require backpropagation; they self-organize by reducing uncertainty step by step."),
  ("05_part2_title", "Part Two: The Dynamics."),
  ("06_part2_content", "The second paper elevates SKA to the level of physical law. By interpreting the learning rate as a temporal differential, SKA reveals that the evolution of knowledge follows the principle of entropic least action."),
  ("07_part2_euler", "The Euler-Lagrange equation collapses to an identity zero equals zero, showing that the system\x27s trajectory is intrinsically optimal. Learning is a natural law of motion in information space — not an optimization problem, but an entropic flow."),
  ("08_part3_title", "Part Three: The Geometry."),
  ("09_part3_content", "The third work extends SKA to continuous neural fields. By introducing neuron density and local entropy, the neural medium becomes a Riemannian information manifold."),
  ("10_part3_geodesic", "Knowledge propagates along geodesic trajectories that minimize information distance, revealing architectures that are not designed but discovered — the natural geometry of knowledge propagation."),
  ("11_insight", "Classical neural networks and SKA layered networks are approximations of this continuous formulation. Discrete architectures are merely discretizations of the deeper Riemannian geometry."),
  ("12_unified", "From entropy to dynamics to geometry, the SKA trilogy traces the full trajectory of intelligence. Learning is not the correction of error — it is the progressive organization of knowledge along geodesic paths."),
  ("13_unity", "The mathematical unity is complete. Entropy generates the Lagrangian, and the Lagrangian gives rise to the Riemannian metric. This closure mirrors the great symmetries of physics — from potential to motion to geometry."),
  ("14_final", "SKA unites Entropy, Lagrange\x27s action, and Riemann\x27s geometry into a single law of knowledge accumulation.")]

/-- The `narrations` literal of `the_fridge_case/generate_audio.py`
(adjacent Python string literals concatenated, as the interpreter does). -/
def narrations_the_fridge_case : List (String × String) := [
  ("01_intro", "The Fridge Case. Why human intelligence is probabilistic, not deterministic."),
  ("02_scenario", "It\x27s Wednesday. You\x27re wondering whether to go to the supermarket. At first, the probability is zero point five — completely undecided."),
  ("03_undecided", "On the sigmoid curve, your decision sits exactly at the midpoint. No information has yet tipped the balance."),
  ("04_features", "You open the fridge. You observe what\x27s inside — these are your input features."),
  ("05_knowledge", "You mentally weigh what your family needs until the end of the week, drawing on past experience This is your knowledge value, Z — the accumulation of everything you know."),
  ("06_sigmoid", "The sigmoid function maps your accumulated knowledge to a decision probability. D equals sigma of Z. If D exceeds zero point five, you go."),
  ("07_new_knowledge", "Then you remember: friends are coming for dinner tomorrow. New knowledge arrives, and the probability shifts upward."),
  ("08_decision_clears", "Knowledge accumulates. Uncertainty reduces. The decision becomes clear. This is entropy reduction in action."),
  ("09_why_matters", "This is not just a shopping story. It is the essence of how human intelligence works."),
  ("10_forward", "Forward-only learning: knowledge only accumulates. You don\x27t unsee what\x27s in the fridge."),
  ("11_probabilistic", "Probabilistic decisions: every new piece of knowledge shifts the probability of decision-making."),
  ("12_entropy", "Entropy reduction: intelligence is the process of reducing uncertainty until a choice becomes clear."),
  ("13_binary_vs_ska", "Most people explain decisions as binary: I went because the fridge was empty. But that skips the trajectory — the gradual shift of probability that is the real process of intelligence."),
  ("14_takeaway", "Every human decision, from the fridge to life-changing decisions, is probabilistic. SKA doesn\x27t mimic this — it formalizes it.")]

/-- The `narrations` literal of
`the_three_laws_of_intelligence/generate_audio.py`. -/
def narrations_three_laws : List (String × String) := [
  ("01_intro", "What if intelligence could be described by just three fundamental laws?"),
  ("02_law1_principle", "Law One: Probabilistic Decision-Making. Intelligence is the capacity to make decisions under uncertainty."),
  ("03_law1_sigmoid", "The sigmoid function transforms accumulated knowledge into decision probability. As knowledge z increases, the decision D moves from uncertainty toward confidence."),
  ("04_law1_meaning", "This equation bridges cognition and mathematics. Intelligence is not deterministic, but probabilistic."),
  ("05_law2_principle", "Law Two: Knowledge Accumulation. Knowledge grows forward-only by reducing uncertainty through structured accumulation."),
  ("06_law2_formula", "The entropy H is measured as an integral over the knowledge trajectory z and the change in decision probability."),
  ("07_law2_entropy", "As knowledge increases, entropy decreases. The system becomes more structured and predictable. Learning is entropy minimization, not gradient descent."),
  ("08_law3_principle", "Law Three: Entropic Least Action. Among all possible learning paths, intelligence follows the path of least action."),
  ("09_law3_paths", "Consider multiple possible paths through knowledge space. Only one path minimizes entropy — the optimal trajectory."),
  ("10_law3_physics", "This law brings physics into intelligence. The Euler-Lagrange equation governs how cognition evolves — minimizing entropy rather than energy. No backpropagation, just natural forward-only optimization."),
  ("11_unified", "Together, these three laws form a unified framework. Probabilistic decisions, knowledge accumulation, and entropic least action."),
  ("12_paradigm", "This represents a paradigm shift. From \x27AI works because it learns patterns\x27 to \x27AI works because intelligence is the physical reduction of entropy along a probabilistic path.\x27"),
  ("13_final", "Intelligence isn\x27t a mystery. It\x27s a law-governed natural process.")]

/-- The `narrations` literal of
`SKA_Animation/ska_animation_archive/generate_audio.py`. -/
def narrations_ska_archive : List (String × String) := [
  ("01_intro_classical", "In classical information theory, entropy measures global uncertainty over an entire distribution."),
  ("02_intro_ska", "SKA takes a different approach: entropy is defined locally, at each point in the neural medium."),
  ("03_volume_element", "Consider a volume element at position r, containing n of r neurons."),
  ("04_tensors", "We define the knowledge tensor z of r, and the decision probability tensor D of r."),
  ("05_learning_step", "During a learning step, decisions shift by delta D."),
  ("06_dot_product", "The local entropy density is their dot product."),
  ("07_density_intro", "Neuron density needs no explicit variable."),
  ("08_density_sum", "The dot product sums over n of r terms automatically."),
  ("09_density_implicit", "Denser regions produce proportionally smaller entropy. Density is implicit in the structure itself."),
  ("10_universality", "The identical equation, in any spatial dimension. One formula. Any geometry."),
  ("11_hubs", "High-density regions have greater capacity to reduce entropy, becoming natural hubs for knowledge accumulation."),
  ("12_gradient", "The gradient of h guides information flow."),
  ("13_self_regulates", "The system self-regulates, by local capacity."),
  ("14_finale", "Entropy, reimagined. Not as a global summary, but as a living, breathing field.")]

/-- The hardcoded `output_dir` of each script. -/
def dir_the_trilogy : String := "/home/coder/project/manim_the_trilogy/audio"

def dir_the_fridge_case : String := "/home/coder/project/manim_fridge/audio"

def dir_three_laws : String :=
  "/home/coder/project/manim_the_three_laws_of_intelligence/audio"

/-- Default value of `output_dir` in the archive script's
`generate_audio`, used by its `main` (which passes no directory). -/
def dir_ska_archive : String := "/home/coder/manim/audio"

/-- `main` of `the_trilogy/generate_audio.py`: create the output
directory, then run the loop over `narrations` in list order. -/
def main_the_trilogy (svc : Service) : RunState × Option String :=
  run_batch svc narrations_the_trilogy dir_the_trilogy
    (makedirs dir_the_trilogy initState)

/-- `main` of `the_fridge_case/generate_audio.py`. -/
def main_the_fridge_case (svc : Service) : RunState × Option String :=
  run_batch svc narrations_the_fridge_case dir_the_fridge_case
    (makedirs dir_the_fridge_case initState)

/-- `main` of `the_three_laws_of_intelligence/generate_audio.py`. -/
def main_three_laws (svc : Service) : RunState × Option String :=
  run_batch svc narrations_three_laws dir_three_laws
    (makedirs dir_three_laws initState)

/-- `main` of `SKA_Animation/ska_animation_archive/generate_audio.py`:
this script performs NO `os.makedirs` call (it does not even import
`os`); it loops over `narrations` directly. -/
def main_ska_archive (svc : Service) : RunState × Option String :=
  run_batch svc narrations_ska_archive dir_ska_archive initState

/-- A service that always succeeds, returning audio content `0`. -/
def svcOk : Service := fun _ => Except.ok 0

lemma keys_cons (p : String) (c : Nat) (fs : List (String × Nat)) :
    keys ((p, c) :: fs) = p :: keys fs := rfl

lemma mem_keys_writeFile (fs : List (String × Nat)) (p : String) (c : Nat)
    (q : String) : q ∈ keys (writeFile fs p c) ↔ q = p ∨ q ∈ keys fs := by
  induction fs with
  | nil => simp [writeFile, keys]
  | cons kv fs ih =>
    obtain ⟨r, d⟩ := kv
    simp only [writeFile]
    split
    · next h =>
        subst h
        simp only [keys_cons, List.mem_cons]
        tauto
    · next h =>
        simp only [keys_cons, List.mem_cons, ih]
        tauto

lemma nodup_keys_writeFile (fs : List (String × Nat)) (p : String) (c : Nat) :
    (keys fs).Nodup → (keys (writeFile fs p c)).Nodup := by
  induction fs with
  | nil => intro _; simp [writeFile, keys]
  | cons kv fs ih =>
    intro h
    obtain ⟨r, d⟩ := kv
    rw [keys_cons, List.nodup_cons] at h
    simp only [writeFile]
    split
    · next hr =>
        subst hr
        rw [keys_cons, List.nodup_cons]
        exact h
    · next hr =>
        rw [keys_cons, List.nodup_cons]
        refine ⟨?_, ih h.2⟩
        intro hmem
        rcases (mem_keys_writeFile fs p c r).mp hmem with h1 | h1
        · exact hr h1
        · exact h.1 h1

lemma lookupFile_writeFile (fs : List (String × Nat)) (p : String) (c : Nat) :
    lookupFile (writeFile fs p c) p = some c := by
  induction fs with
  | nil => simp [writeFile, lookupFile]
  | cons kv fs ih =>
    obtain ⟨r, d⟩ := kv
    by_cases hr : r = p
    · subst hr; simp [writeFile, lookupFile]
    · simp [writeFile, lookupFile, hr, ih]

lemma generate_audio_ok (svc : Service) (name text output_dir : String)
    (s : RunState) (a : Nat)
    (h : svc (mkCall output_dir name text) = Except.ok a) :
    generate_audio svc name text output_dir s =
      Except.ok { s with
        files := writeFile s.files (outputPath output_dir name) a,
        trace := s.trace ++ segEvents output_dir (name, text) } := by
  simp [generate_audio, segEvents, h]

lemma generate_audio_err (svc : Service) (name text output_dir : String)
    (s : RunState) (e : String)
    (h : svc (mkCall output_dir name text) = Except.error e) :
    generate_audio svc name text output_dir s =
      Except.error (e, { s with
        trace := s.trace ++ [Event.synth (mkCall output_dir name text)] }) := by
  simp [generate_audio, h]

lemma run_batch_ok (svc : Service) (segs : List (String × String))
    (output_dir : String) : ∀ s : RunState,
    (∀ seg ∈ segs, ∃ a, svc (mkCall output_dir seg.1 seg.2) = Except.ok a) →
    (run_batch svc segs output_dir s).2 = none ∧
    (run_batch svc segs output_dir s).1.dirs = s.dirs ∧
    (run_batch svc segs output_dir s).1.trace =
      s.trace ++ (segs.map (segEvents output_dir)).flatten ∧
    (∀ q, q ∈ keys (run_batch svc segs output_dir s).1.files ↔
      q ∈ keys s.files ∨ ∃ seg ∈ segs, q = outputPath output_dir seg.1) ∧
    ((keys s.files).Nodup →
      (keys (run_batch svc segs output_dir s).1.files).Nodup) := by
  induction segs with
  | nil =>
    intro s _
    simp [run_batch]
  | cons seg rest ih =>
    intro s h
    obtain ⟨n, t⟩ := seg
    obtain ⟨a, ha⟩ := h (n, t) (List.mem_cons_self _ _)
    have hrest : ∀ seg ∈ rest, ∃ a, svc (mkCall output_dir seg.1 seg.2) =
        Except.ok a := fun seg hseg => h seg (List.mem_cons_of_mem _ hseg)
    have hstep := generate_audio_ok svc n t output_dir s a ha
    have hred : run_batch svc ((n, t) :: rest) output_dir s =
        run_batch svc rest output_dir { s with
          files := writeFile s.files (outputPath output_dir n) a,
          trace := s.trace ++ segEvents output_dir (n, t) } := by
      simp [run_batch, hstep]
    obtain ⟨h1, h2, h3, h4, h5⟩ := ih _ hrest
    rw [hred]
    refine ⟨h1, h2, ?_, ?_, ?_⟩
    · rw [h3]
      simp [List.append_assoc]
    · intro q
      rw [h4 q]
      simp only [mem_keys_writeFile, List.mem_cons]
      constructor
      · rintro ((hq | hq) | ⟨seg, hseg, hq⟩)
        · exact Or.inr ⟨(n, t), Or.inl rfl, hq⟩
        · exact Or.inl hq
        · exact Or.inr ⟨seg, Or.inr hseg, hq⟩
      · rintro (hq | ⟨seg, (hseg | hseg), hq⟩)
        · exact Or.inl (Or.inr hq)
        · subst hseg; exact Or.inl (Or.inl hq)
        · exact Or.inr ⟨seg, hseg, hq⟩
    · intro hnd
      exact h5 (nodup_keys_writeFile _ _ _ hnd)

lemma run_batch_err (svc : Service) (output_dir n t e : String)
    (post : List (String × String)) (pre : List (String × String)) :
    ∀ s : RunState,
    (∀ seg ∈ pre, ∃ a, svc (mkCall output_dir seg.1 seg.2) = Except.ok a) →
    svc (mkCall output_dir n t) = Except.error e →
    (run_batch svc (pre ++ (n, t) :: post) output_dir s).2 = some e ∧
    (run_batch svc (pre ++ (n, t) :: post) output_dir s).1.trace =
      s.trace ++ (pre.map (segEvents output_dir)).flatten ++
        [Event.synth (mkCall output_dir n t)] ∧
    (∀ q, q ∈ keys (run_batch svc (pre ++ (n, t) :: post) output_dir s).1.files ↔
      q ∈ keys s.files ∨ ∃ seg ∈ pre, q = outputPath output_dir seg.1) := by
  induction pre with
  | nil =>
    intro s _ herr
    have hstep := generate_audio_err svc n t output_dir s e herr
    simp [run_batch, hstep]
  | cons seg pre ih =>
    intro s h herr
    obtain ⟨m, u⟩ := seg
    obtain ⟨a, ha⟩ := h (m, u) (List.mem_cons_self _ _)
    have hpre : ∀ seg ∈ pre, ∃ a, svc (mkCall output_dir seg.1 seg.2) =
        Except.ok a := fun seg hseg => h seg (List.mem_cons_of_mem _ hseg)
    have hstep := generate_audio_ok svc m u output_dir s a ha
    have hred : run_batch svc (((m, u) :: pre) ++ (n, t) :: post) output_dir s =
        run_batch svc (pre ++ (n, t) :: post) output_dir { s with
          files := writeFile s.files (outputPath output_dir m) a,
          trace := s.trace ++ segEvents output_dir (m, u) } := by
      simp [run_batch, hstep]
    obtain ⟨h1, h2, h3⟩ := ih _ hpre herr
    rw [hred]
    refine ⟨h1, ?_, ?_⟩
    · rw [h2]
      simp [List.append_assoc]
    · intro q
      rw [h3 q]
      simp only [mem_keys_writeFile, List.mem_cons]
      constructor
      · rintro ((hq | hq) | ⟨sg, hsg, hq⟩)
        · exact Or.inr ⟨(m, u), Or.inl rfl, hq⟩
        · exact Or.inl hq
        · exact Or.inr ⟨sg, Or.inr hsg, hq⟩
      · rintro (hq | ⟨sg, (hsg | hsg), hq⟩)
        · exact Or.inl (Or.inr hq)
        · subst hsg; exact Or.inl (Or.inl hq)
        · exact Or.inr ⟨sg, hsg, hq⟩

lemma synthCalls_append (t1 t2 : List Event) :
    synthCalls (t1 ++ t2) = synthCalls t1 ++ synthCalls t2 := by
  simp [synthCalls]

lemma synthCalls_segEvents (output_dir : String) (seg : String × String) :
    synthCalls (segEvents output_dir seg) = [mkCall output_dir seg.1 seg.2] :=
  rfl

lemma synthCalls_join_segEvents (output_dir : String)
    (segs : List (String × String)) :
    synthCalls ((segs.map (segEvents output_dir)).flatten) =
      segs.map (fun seg => mkCall output_dir seg.1 seg.2) := by
  induction segs with
  | nil => rfl
  | cons seg rest ih =>
    simp [List.flatten_cons, synthCalls_append, synthCalls_segEvents, ih]

/-- `true` iff the event is not a directory creation. -/
def notMkdir (e : Event) : Bool := !(e.isMkdir)

lemma fixedVoice_mkCall (output_dir name text : String) :
    fixedVoice (mkCall output_dir name text) = true := rfl

lemma run_batch_dirs_any (svc : Service) (segs : List (String × String))
    (output_dir : String) : ∀ s : RunState,
    (run_batch svc segs output_dir s).1.dirs = s.dirs := by
  induction segs with
  | nil => intro s; rfl
  | cons seg rest ih =>
    intro s
    obtain ⟨n, t⟩ := seg
    cases hsvc : svc (mkCall output_dir n t) with
    | ok a =>
      have hred : run_batch svc ((n, t) :: rest) output_dir s =
          run_batch svc rest output_dir { s with
            files := writeFile s.files (outputPath output_dir n) a,
            trace := s.trace ++ segEvents output_dir (n, t) } := by
        simp [run_batch, generate_audio_ok svc n t output_dir s a hsvc]
      rw [hred, ih]
    | error e =>
      have hred : run_batch svc ((n, t) :: rest) output_dir s =
          ({ s with trace := s.trace ++
              [Event.synth (mkCall output_dir n t)] }, some e) := by
        simp [run_batch, generate_audio_err svc n t output_dir s e hsvc]
      rw [hred]

lemma run_batch_trace_extends (svc : Service) (segs : List (String × String))
    (output_dir : String) : ∀ s : RunState,
    ∃ t, (run_batch svc segs output_dir s).1.trace = s.trace ++ t := by
  induction segs with
  | nil => intro s; exact ⟨[], by simp [run_batch]⟩
  | cons seg rest ih =>
    intro s
    obtain ⟨n, t⟩ := seg
    cases hsvc : svc (mkCall output_dir n t) with
    | ok a =>
      have hred : run_batch svc ((n, t) :: rest) output_dir s =
          run_batch svc rest output_dir { s with
            files := writeFile s.files (outputPath output_dir n) a,
            trace := s.trace ++ segEvents output_dir (n, t) } := by
        simp [run_batch, generate_audio_ok svc n t output_dir s a hsvc]
      obtain ⟨u, hu⟩ := ih { s with
        files := writeFile s.files (outputPath output_dir n) a,
        trace := s.trace ++ segEvents output_dir (n, t) }
      refine ⟨segEvents output_dir (n, t) ++ u, ?_⟩
      rw [hred, hu]
      simp [List.append_assoc]
    | error e =>
      have hred : run_batch svc ((n, t) :: rest) output_dir s =
          ({ s with trace := s.trace ++
              [Event.synth (mkCall output_dir n t)] }, some e) := by
        simp [run_batch, generate_audio_err svc n t output_dir s e hsvc]
      exact ⟨[Event.synth (mkCall output_dir n t)], by rw [hred]⟩

lemma run_batch_no_mkdir (svc : Service) (segs : List (String × String))
    (output_dir : String) : ∀ s : RunState,
    s.trace.all notMkdir = true →
    (run_batch svc segs output_dir s).1.trace.all notMkdir = true := by
  induction segs with
  | nil => intro s h; exact h
  | cons seg rest ih =>
    intro s h
    obtain ⟨n, t⟩ := seg
    cases hsvc : svc (mkCall output_dir n t) with
    | ok a =>
      have hred : run_batch svc ((n, t) :: rest) output_dir s =
          run_batch svc rest output_dir { s with
            files := writeFile s.files (outputPath output_dir n) a,
            trace := s.trace ++ segEvents output_dir (n, t) } := by
        simp [run_batch, generate_audio_ok svc n t output_dir s a hsvc]
      rw [hred]
      apply ih
      simp only [List.all_append, h, Bool.true_and]
      rfl
    | error e =>
      have hred : run_batch svc ((n, t) :: rest) output_dir s =
          ({ s with trace := s.trace ++
              [Event.synth (mkCall output_dir n t)] }, some e) := by
        simp [run_batch, generate_audio_err svc n t output_dir s e hsvc]
      rw [hred]
      simp only [List.all_append, h, Bool.true_and]
      rfl

lemma run_batch_fixedVoice (svc : Service) (segs : List (String × String))
    (output_dir : String) : ∀ s : RunState,
    (synthCalls s.trace).all fixedVoice = true →
    (synthCalls (run_batch svc segs output_dir s).1.trace).all fixedVoice =
      true := by
  induction segs with
  | nil => intro s h; exact h
  | cons seg rest ih =>
    intro s h
    obtain ⟨n, t⟩ := seg
    cases hsvc : svc (mkCall output_dir n t) with
    | ok a =>
      have hred : run_batch svc ((n, t) :: rest) output_dir s =
          run_batch svc rest output_dir { s with
            files := writeFile s.files (outputPath output_dir n) a,
            trace := s.trace ++ segEvents output_dir (n, t) } := by
        simp [run_batch, generate_audio_ok svc n t output_dir s a hsvc]
      rw [hred]
      apply ih
      simp only [synthCalls_append, List.all_append, h, Bool.true_and,
        synthCalls_segEvents, List.all_cons, List.all_nil,
        fixedVoice_mkCall, Bool.and_true]
    | error e =>
      have hred : run_batch svc ((n, t) :: rest) output_dir s =
          ({ s with trace := s.trace ++
              [Event.synth (mkCall output_dir n t)] }, some e) := by
        simp [run_batch, generate_audio_err svc n t output_dir s e hsvc]
      rw [hred]
      simp only [synthCalls_append, List.all_append, h, Bool.true_and]
      simp [synthCalls, fixedVoice_mkCall]

/-- The run state reached by `generate_audio`, whether it succeeded or
propagated a service error. -/
def stateOf : Except (String × RunState) RunState → RunState
  | Except.ok s => s
  | Except.error (_, s) => s

/-- A service whose synthesis fails exactly on the text `"boom"`. -/
def svcBoom : Service := fun c =>
  if c.text = "boom" then Except.error "edge-tts failure" else Except.ok 0

/-- C1: For every segment list and every index k, if the synthesis call
for segment k raises an error, then `run_batch` (`main`'s loop)
terminates with that error such that segments 1..k-1 have each produced
their output file and segments k+1..n are never attempted — no retry, no
aggregation, no rollback of already-written files.  Here the list is
split as `pre ++ (n, t) :: post`: every segment of `pre` succeeds, the
call for `(n, t)` fails with `e`, the run returns `some e`, the trace
ends at the failing synthesis call (so nothing in `post` is ever
attempted and the failing call is not retried), every segment of `pre`
has its output file on disk, and no file beyond those (and the initial
ones) exists. -/
theorem claim_C1 (svc : Service) (output_dir n t e : String)
    (pre post : List (String × String)) (s : RunState)
    (hpre : ∀ seg ∈ pre, ∃ a, svc (mkCall output_dir seg.1 seg.2) =
      Except.ok a)
    (herr : svc (mkCall output_dir n t) = Except.error e) :
    (run_batch svc (pre ++ (n, t) :: post) output_dir s).2 = some e ∧
    (run_batch svc (pre ++ (n, t) :: post) output_dir s).1.trace =
      s.trace ++ (pre.map (segEvents output_dir)).flatten ++
        [Event.synth (mkCall output_dir n t)] ∧
    (∀ seg ∈ pre, outputPath output_dir seg.1 ∈
      keys (run_batch svc (pre ++ (n, t) :: post) output_dir s).1.files) ∧
    (∀ q ∈ keys (run_batch svc (pre ++ (n, t) :: post) output_dir s).1.files,
      q ∈ keys s.files ∨ ∃ seg ∈ pre, q = outputPath output_dir seg.1) := by
  obtain ⟨h1, h2, h3⟩ := run_batch_err svc output_dir n t e post pre s hpre herr
  refine ⟨h1, h2, ?_, ?_⟩
  · intro seg hseg
    exact (h3 _).mpr (Or.inr ⟨seg, hseg, rfl⟩)
  · intro q hq
    exact (h3 q).mp hq

/-- Witness for C1 at a concrete input: segment 2 of 3 fails under
`svcBoom`; the run stops with its error, segment 1's file exists, and the
trace ends at the failing call. -/
theorem claim_C1_witness :
    (run_batch svcBoom [("01", "alpha"), ("02", "boom"), ("03", "gamma")]
      "/out" initState).2 = some "edge-tts failure" ∧
    outputPath "/out" "01" ∈
      keys (run_batch svcBoom [("01", "alpha"), ("02", "boom"), ("03", "gamma")]
        "/out" initState).1.files := by
  have h := claim_C1 svcBoom "/out" "02" "boom" "edge-tts failure"
    [("01", "alpha")] [("03", "gamma")] initState
    (by
      intro seg hseg
      rw [List.mem_singleton] at hseg
      subst hseg
      exact ⟨0, rfl⟩)
    (by rfl)
  exact ⟨h.1, h.2.2.1 ("01", "alpha") (List.mem_singleton.mpr rfl)⟩

/-- C2: For every segment (identifier, text) in the input list, after a
successful run exactly one output file exists for that segment, at path
`output_dir ++ "/" ++ identifier ++ ".mp3"` (flat naming via
`outputPath`), and no other files exist. -/
theorem claim_C2 (svc : Service) (segs : List (String × String))
    (output_dir : String)
    (hok : ∀ seg ∈ segs, ∃ a, svc (mkCall output_dir seg.1 seg.2) =
      Except.ok a) :
    (run_batch svc segs output_dir initState).2 = none ∧
    (∀ seg ∈ segs,
      (keys (run_batch svc segs output_dir initState).1.files).count
        (outputPath output_dir seg.1) = 1) ∧
    (∀ q ∈ keys (run_batch svc segs output_dir initState).1.files,
      ∃ seg ∈ segs, q = outputPath output_dir seg.1) := by
  obtain ⟨h1, _, _, h4, h5⟩ := run_batch_ok svc segs output_dir initState hok
  have hnd : (keys (run_batch svc segs output_dir initState).1.files).Nodup :=
    h5 (by simp [initState, keys])
  refine ⟨h1, ?_, ?_⟩
  · intro seg hseg
    have hmem : outputPath output_dir seg.1 ∈
        keys (run_batch svc segs output_dir initState).1.files :=
      (h4 _).mpr (Or.inr ⟨seg, hseg, rfl⟩)
    exact List.count_eq_one_of_mem hnd hmem
  · intro q hq
    rcases (h4 q).mp hq with h | h
    · simp [initState, keys] at h
    · exact h

/-- Witness for C2 at a concrete input: a two-segment batch under the
always-succeeding service yields exactly one file per segment. -/
theorem claim_C2_witness :
    (run_batch svcOk [("01", "x"), ("02", "y")] "/out" initState).2 = none ∧
    (keys (run_batch svcOk [("01", "x"), ("02", "y")] "/out"
      initState).1.files).count (outputPath "/out" "01") = 1 := by
  have h := claim_C2 svcOk [("01", "x"), ("02", "y")] "/out"
    (fun seg _ => ⟨0, rfl⟩)
  exact ⟨h.1, h.2.1 ("01", "x") (List.mem_cons_self _ _)⟩

/-- C4: `run_batch` (`main`'s loop) processes the segment list strictly
in list order, issuing exactly one synthesis-service call per segment;
in the trace each segment's call is followed by its file write before
the next segment's call appears (each call completes before the next
begins — the model is single-threaded, so no two calls overlap). -/
theorem claim_C4 (svc : Service) (segs : List (String × String))
    (output_dir : String) (s : RunState)
    (hok : ∀ seg ∈ segs, ∃ a, svc (mkCall output_dir seg.1 seg.2) =
      Except.ok a) :
    (run_batch svc segs output_dir s).1.trace =
      s.trace ++ (segs.map (segEvents output_dir)).flatten ∧
    synthCalls (run_batch svc segs output_dir s).1.trace =
      synthCalls s.trace ++
        segs.map (fun seg => mkCall output_dir seg.1 seg.2) := by
  obtain ⟨_, _, h3, _, _⟩ := run_batch_ok svc segs output_dir s hok
  refine ⟨h3, ?_⟩
  rw [h3, synthCalls_append, synthCalls_join_segEvents]

/-- Witness for C4 at a concrete input: a two-segment batch issues
exactly the two calls, in list order, each followed by its write. -/
theorem claim_C4_witness :
    (run_batch svcOk [("01", "x"), ("02", "y")] "/out" initState).1.trace =
      [Event.synth (mkCall "/out" "01" "x"),
       Event.write (outputPath "/out" "01"),
       Event.synth (mkCall "/out" "02" "y"),
       Event.write (outputPath "/out" "02")] := by
  have h := claim_C4 svcOk [("01", "x"), ("02", "y")] "/out" initState
    (fun seg _ => ⟨0, rfl⟩)
  rw [h.1]
  rfl

/-- C5: Given an empty segment list, `run_batch` completes successfully
(no error), leaves the state untouched (zero output files written), and
makes zero synthesis-service calls. -/
theorem claim_C5 (svc : Service) (output_dir : String) (s : RunState) :
    (run_batch svc [] output_dir s).2 = none ∧
    (run_batch svc [] output_dir s).1 = s ∧
    synthCalls (run_batch svc [] output_dir s).1.trace =
      synthCalls s.trace :=
  ⟨rfl, rfl, rfl⟩

/-- C3 counterexample: the claim says EVERY narration-generation script
creates the output directory before any synthesis call.
`SKA_Animation/ska_animation_archive/generate_audio.py` never calls
`os.makedirs` (it does not even import `os`): starting from a state where
the output directory does not exist, its run issues 14 synthesis calls,
its trace contains no directory-creation event at all, and the output
directory still does not exist afterwards. -/
theorem claim_C3_counterexample :
    (main_ska_archive svcOk).1.trace.all notMkdir = true ∧
    (synthCalls (main_ska_archive svcOk).1.trace).length = 14 ∧
    dir_ska_archive ∉ (main_ska_archive svcOk).1.dirs := by
  refine ⟨by decide, by decide, by decide⟩

/-- C3 (amended): of the four narration-generation scripts, the trilogy,
fridge-case, and three-laws scripts create their output directory as the
run's first recorded action — hence before any synthesis call is
attempted — and the directory exists from then on; the
`ska_animation_archive` script performs no directory creation at all. -/
theorem claim_C3 (svc : Service) :
    (∃ t, (main_the_trilogy svc).1.trace =
      Event.mkdir dir_the_trilogy :: t) ∧
    dir_the_trilogy ∈ (main_the_trilogy svc).1.dirs ∧
    (∃ t, (main_the_fridge_case svc).1.trace =
      Event.mkdir dir_the_fridge_case :: t) ∧
    dir_the_fridge_case ∈ (main_the_fridge_case svc).1.dirs ∧
    (∃ t, (main_three_laws svc).1.trace =
      Event.mkdir dir_three_laws :: t) ∧
    dir_three_laws ∈ (main_three_laws svc).1.dirs ∧
    (main_ska_archive svc).1.trace.all notMkdir = true := by
  refine ⟨?_, ?_, ?_, ?_, ?_, ?_, ?_⟩
  · obtain ⟨t, ht⟩ := run_batch_trace_extends svc narrations_the_trilogy
      dir_the_trilogy (makedirs dir_the_trilogy initState)
    exact ⟨t, ht⟩
  · rw [main_the_trilogy, run_batch_dirs_any]
    simp [makedirs, initState]
  · obtain ⟨t, ht⟩ := run_batch_trace_extends svc narrations_the_fridge_case
      dir_the_fridge_case (makedirs dir_the_fridge_case initState)
    exact ⟨t, ht⟩
  · rw [main_the_fridge_case, run_batch_dirs_any]
    simp [makedirs, initState]
  · obtain ⟨t, ht⟩ := run_batch_trace_extends svc narrations_three_laws
      dir_three_laws (makedirs dir_three_laws initState)
    exact ⟨t, ht⟩
  · rw [main_three_laws, run_batch_dirs_any]
    simp [makedirs, initState]
  · exact run_batch_no_mkdir svc narrations_ska_archive dir_ska_archive
      initState rfl

/-- C6: Every synthesis call in a run of any of the four scripts uses the
fixed voice configuration — voice `"en-US-AndrewNeural"`, rate `"-5%"`,
pitch `"+0Hz"` — for every segment, whatever the service's outcomes. -/
theorem claim_C6 (svc : Service) :
    (synthCalls (main_the_trilogy svc).1.trace).all fixedVoice = true ∧
    (synthCalls (main_the_fridge_case svc).1.trace).all fixedVoice = true ∧
    (synthCalls (main_three_laws svc).1.trace).all fixedVoice = true ∧
    (synthCalls (main_ska_archive svc).1.trace).all fixedVoice = true := by
  refine ⟨?_, ?_, ?_, ?_⟩ <;>
    exact run_batch_fixedVoice svc _ _ _ rfl

/-- C7: `run_batch` attempts every segment unconditionally — starting
from ANY prior state `s` (in particular one in which the output file
already exists from a prior run, since there is no skip-if-exists check)
— and when two segments carry the same identifier, both are synthesized
(two calls appear in the trace) and the later segment's write overwrites
the earlier segment's file: the file at the shared path holds the second
call's audio (last-write-wins); no uniqueness check is enforced. -/
theorem claim_C7 (svc : Service) (output_dir n t1 t2 : String)
    (s : RunState) (a1 a2 : Nat)
    (h1 : svc (mkCall output_dir n t1) = Except.ok a1)
    (h2 : svc (mkCall output_dir n t2) = Except.ok a2) :
    (run_batch svc [(n, t1), (n, t2)] output_dir s).2 = none ∧
    synthCalls (run_batch svc [(n, t1), (n, t2)] output_dir s).1.trace =
      synthCalls s.trace ++
        [mkCall output_dir n t1, mkCall output_dir n t2] ∧
    lookupFile (run_batch svc [(n, t1), (n, t2)] output_dir s).1.files
      (outputPath output_dir n) = some a2 := by
  have e1 := generate_audio_ok svc n t1 output_dir s a1 h1
  have e2 := generate_audio_ok svc n t2 output_dir
    { s with files := writeFile s.files (outputPath output_dir n) a1,
             trace := s.trace ++ segEvents output_dir (n, t1) } a2 h2
  have hred : run_batch svc [(n, t1), (n, t2)] output_dir s =
      ({ s with
          files := writeFile (writeFile s.files (outputPath output_dir n) a1)
            (outputPath output_dir n) a2,
          trace := (s.trace ++ segEvents output_dir (n, t1)) ++
            segEvents output_dir (n, t2) }, none) := by
    simp [run_batch, e1, e2]
  rw [hred]
  refine ⟨rfl, ?_, ?_⟩
  · simp [synthCalls_append, synthCalls_segEvents]
  · exact lookupFile_writeFile _ _ _

/-- Witness for C7 at a concrete input: two segments named `"01"`,
starting from a state in which `"/out/01.mp3"` already exists with
content `99`; both synthesis calls are issued and the file ends holding
the second call's audio. -/
theorem claim_C7_witness :
    (run_batch svcBoom [("01", "x"), ("01", "y")] "/out"
      ⟨[], [(outputPath "/out" "01", 99)], []⟩).2 = none ∧
    synthCalls (run_batch svcBoom [("01", "x"), ("01", "y")] "/out"
      ⟨[], [(outputPath "/out" "01", 99)], []⟩).1.trace =
      [mkCall "/out" "01" "x", mkCall "/out" "01" "y"] ∧
    lookupFile (run_batch svcBoom [("01", "x"), ("01", "y")] "/out"
      ⟨[], [(outputPath "/out" "01", 99)], []⟩).1.files
      (outputPath "/out" "01") = some 0 := by
  have h := claim_C7 svcBoom "/out" "01" "x" "y"
    ⟨[], [(outputPath "/out" "01", 99)], []⟩ 0 0 rfl rfl
  exact ⟨h.1, by rw [h.2.1]; rfl, h.2.2⟩

/-- C8: For every fixed segment list, running the batch twice (under
possibly different service outcomes, both successful) produces the same
set of output filenames both times: the filename set after the second
run equals the set after the first, and both are exactly the images of
the segment identifiers under `outputPath` — a deterministic function of
the identifiers, independent of file contents. -/
theorem claim_C8 (svc1 svc2 : Service) (segs : List (String × String))
    (output_dir : String)
    (h1 : ∀ seg ∈ segs, ∃ a, svc1 (mkCall output_dir seg.1 seg.2) =
      Except.ok a)
    (h2 : ∀ seg ∈ segs, ∃ a, svc2 (mkCall output_dir seg.1 seg.2) =
      Except.ok a) :
    (∀ q, q ∈ keys (run_batch svc2 segs output_dir
        (run_batch svc1 segs output_dir initState).1).1.files ↔
      q ∈ keys (run_batch svc1 segs output_dir initState).1.files) ∧
    (∀ q, q ∈ keys (run_batch svc1 segs output_dir initState).1.files ↔
      ∃ seg ∈ segs, q = outputPath output_dir seg.1) := by
  obtain ⟨_, _, _, m1, _⟩ := run_batch_ok svc1 segs output_dir initState h1
  obtain ⟨_, _, _, m2, _⟩ := run_batch_ok svc2 segs output_dir
    (run_batch svc1 segs output_dir initState).1 h2
  have hinit : ∀ q : String,
      q ∈ keys (run_batch svc1 segs output_dir initState).1.files ↔
      ∃ seg ∈ segs, q = outputPath output_dir seg.1 := by
    intro q
    rw [m1 q]
    simp [initState, keys]
  refine ⟨?_, hinit⟩
  intro q
  rw [m2 q]
  constructor
  · rintro (h | h)
    · exact h
    · exact (hinit q).mpr h
  · exact fun h => Or.inl h

/-- Witness for C8 at a concrete input: a one-segment batch run twice
(first under `svcOk`, then under `svcBoom`, both succeeding) has the
segment's filename in both filename sets. -/
theorem claim_C8_witness :
    outputPath "/out" "01" ∈ keys (run_batch svcBoom [("01", "x")] "/out"
      (run_batch svcOk [("01", "x")] "/out" initState).1).1.files ∧
    outputPath "/out" "01" ∈
      keys (run_batch svcOk [("01", "x")] "/out" initState).1.files := by
  have h := claim_C8 svcOk svcBoom [("01", "x")] "/out"
    (fun seg _ => ⟨0, rfl⟩)
    (by
      intro seg hseg
      rw [List.mem_singleton] at hseg
      subst hseg
      exact ⟨0, rfl⟩)
  have hm : outputPath "/out" "01" ∈
      keys (run_batch svcOk [("01", "x")] "/out" initState).1.files :=
    (h.2 _).mpr ⟨("01", "x"), List.mem_singleton.mpr rfl, rfl⟩
  exact ⟨(h.1 _).mpr hm, hm⟩

/-- C9: In each script's embedded `narrations` list the identifiers are
pairwise distinct, and therefore the derived output filenames
(`outputPath` applied to each identifier) are also pairwise distinct
within a run — no two segments collide on the same output file. -/
theorem claim_C9 :
    (narrations_the_trilogy.map Prod.fst).Nodup ∧
    (narrations_the_fridge_case.map Prod.fst).Nodup ∧
    (narrations_three_laws.map Prod.fst).Nodup ∧
    (narrations_ska_archive.map Prod.fst).Nodup ∧
    (narrations_the_trilogy.map
      (fun seg => outputPath dir_the_trilogy seg.1)).Nodup ∧
    (narrations_the_fridge_case.map
      (fun seg => outputPath dir_the_fridge_case seg.1)).Nodup ∧
    (narrations_three_laws.map
      (fun seg => outputPath dir_three_laws seg.1)).Nodup ∧
    (narrations_ska_archive.map
      (fun seg => outputPath dir_ska_archive seg.1)).Nodup := by
  refine ⟨?_, ?_, ?_, ?_, ?_, ?_, ?_, ?_⟩ <;> decide

/-- C10: The output path computed by `generate_audio` is exactly the
string concatenation `output_dir ++ "/" ++ identifier ++ ".mp3"`, with
no validation, sanitization, or escaping of the identifier;
consequently an identifier containing a path separator designates a file
outside the flat output directory: a normal identifier yields a direct
child of the directory, while the identifier `"a/b"` yields
`"/out/a/b.mp3"`, which is not a direct child of `"/out"`, and a
successful `generate_audio` call with that identifier writes exactly
that file. -/
theorem claim_C10 :
    (∀ output_dir name, outputPath output_dir name =
      output_dir ++ "/" ++ name ++ ".mp3") ∧
    flatChild "/out" (outputPath "/out" "01_intro") = true ∧
    outputPath "/out" "a/b" = "/out/a/b.mp3" ∧
    flatChild "/out" (outputPath "/out" "a/b") = false ∧
    keys (stateOf (generate_audio svcOk "a/b" "text" "/out"
      initState)).files = ["/out/a/b.mp3"] := by
  refine ⟨fun _ _ => rfl, by decide, by decide, by decide, by rfl⟩
